import Mathlib

/-!
Shallow embedding of `src/termcode.py` (a terminal coding-practice tool) and
proofs about its execution harness, identifier repair, editor selection,
listing view and interactive loop.

Python values that flow through test cases are modelled by `Termcode.Value`;
Python's dynamic `exec`/attribute lookup cannot be embedded, so the outcome of
loading the user's solution (lines 263-270 of `termcode.py`) is passed to the
harness as an `Except` value, exactly the split the source's `try/except`
makes.  Machine-level details (ANSI colours, printing) are dropped; every list
manipulation, comparison and control-flow branch is translated from the source.
-/

namespace Termcode

/-- A Python value as it appears in problem files (ints, strings, booleans,
`None`).  These are the value forms the tool's test cases use. -/
inductive Value where
  | int (n : Int)
  | str (s : String)
  | bool (b : Bool)
  | none
deriving DecidableEq, Repr

/-- Python `==` on the modelled values: structural equality plus the
`bool`/`int` numeric coercion (`True == 1`, `False == 0`). -/
def pyEq : Value → Value → Bool
  | .int a, .int b => a == b
  | .str a, .str b => a == b
  | .bool a, .bool b => a == b
  | .none, .none => true
  | .bool a, .int b => (if a then (1 : Int) else 0) == b
  | .int a, .bool b => a == (if b then (1 : Int) else 0)
  | _, _ => false

/-- `TestCase` dataclass (lines 16-19): positional inputs and one expected
output. -/
structure TestCase where
  inputs : List Value
  expected_output : Value
deriving DecidableEq, Repr

/-- The user's solution function after `exec` + name lookup: it receives the
positional argument list and either returns a value or raises. -/
def PyFunc := List Value → Except String Value

/-- How the harness passes a test case's inputs to the user function
(lines 279-282): a single positional argument when there is exactly one
input, otherwise the inputs spread as separate positional arguments. -/
inductive CallShape where
  | single (v : Value)
  | spread (vs : List Value)
deriving DecidableEq, Repr

/-- The call shape chosen by `run_tests`: `user_function(inputs[0])` when
`len(inputs) == 1`, else `user_function(*inputs)`. -/
def mkCall : List Value → CallShape
  | [v] => CallShape.single v
  | vs => CallShape.spread vs

/-- The positional argument list a call shape delivers to the function. -/
def argsOf : CallShape → List Value
  | .single v => [v]
  | .spread vs => vs

/-- Lines 279-282: invoke the user function on a test case's inputs,
distinguishing the one-input form from the spread form. -/
def invokeCase (f : PyFunc) (tc : TestCase) : Except String Value :=
  match tc.inputs with
  | [v] => f [v]
  | vs => f vs

/-- Outcome of one test case in `run_tests`. -/
inductive CaseOutcome where
  | passed
  | failed
  | errored
deriving DecidableEq, Repr

/-- Per-case classification (lines 278-293): an exception marks the case
errored, otherwise the return value is compared with `==` to the expected
output. -/
def caseOutcome (f : PyFunc) (tc : TestCase) : CaseOutcome :=
  match invokeCase f tc with
  | .error _ => .errored
  | .ok r => if pyEq r tc.expected_output then .passed else .failed

/-- The `for` loop of `run_tests` (lines 273-294): walks the test cases
carrying the mutable `all_passed` flag, collecting each case's outcome; a
failing or erroring case clears the flag and the loop continues. -/
def runTestsLoop (f : PyFunc) : List TestCase → Bool → List CaseOutcome × Bool
  | [], ap => ([], ap)
  | tc :: rest, ap =>
    match invokeCase f tc with
    | .ok r =>
      if pyEq r tc.expected_output then
        (CaseOutcome.passed :: (runTestsLoop f rest ap).1, (runTestsLoop f rest ap).2)
      else
        (CaseOutcome.failed :: (runTestsLoop f rest false).1, (runTestsLoop f rest false).2)
    | .error _ =>
        (CaseOutcome.errored :: (runTestsLoop f rest false).1, (runTestsLoop f rest false).2)

/-- What `run_tests` reports: the empty-code early return (line 259), the
top-level `except` (lines 302-303), or the per-case outcomes with the final
`all_passed` flag. -/
inductive TestReport where
  | noSolution
  | topError (e : String)
  | results (cases : List CaseOutcome) (all_passed : Bool)
deriving DecidableEq, Repr

/-- `run_tests` (lines 254-305).  `load` is the outcome of
`exec(self.user_code, namespace)` followed by the function-name split and the
`namespace[func_name]` lookup — any exception there is caught by the outer
`except` and reported as a single top-level error before any case runs. -/
def run_tests (user_code : String) (load : Except String PyFunc)
    (tcs : List TestCase) : TestReport :=
  if user_code = "" then .noSolution
  else
    match load with
    | .error e => .topError e
    | .ok f => .results (runTestsLoop f tcs true).1 (runTestsLoop f tcs true).2

/-- `Problem` dataclass (lines 40-70). -/
structure Problem where
  id : Int
  title : String
  difficulty : String
  description : String
  function_template : String
  test_cases : List TestCase
  completion : String
deriving DecidableEq, Repr

/-- One scan of `reshuffle_id_nums`'s inner loop (lines 348-363) over the
problem files' ids in directory order: each id already in `id_nums_seen` is
rewritten to `id + 1` (and the flag set); an unseen id is appended to
`id_nums_seen`.  A rewritten id is not appended to `id_nums_seen`. -/
def reshufflePass (seen : List Int) : List Int → List Int × Bool
  | [] => ([], false)
  | i :: rest =>
    if i ∈ seen then
      ((i + 1) :: (reshufflePass seen rest).1, true)
    else
      (i :: (reshufflePass (seen ++ [i]) rest).1, (reshufflePass (seen ++ [i]) rest).2)

/-- The outer `for _ in os.listdir(problems_dir)` loop (line 347): the scan is
repeated once per directory entry, accumulating the `shuffled` flag, each scan
reading the ids the previous scan persisted. -/
def reshuffleIter : Nat → List Int × Bool → List Int × Bool
  | 0, st => st
  | n + 1, st =>
    reshuffleIter n ((reshufflePass [] st.1).1, st.2 || (reshufflePass [] st.1).2)

/-- `reshuffle_id_nums` (lines 345-365) acting on the ids of the problem
files in directory order; the second component is the `shuffled` flag that
selects which message is printed. -/
def reshuffle_id_nums (files : List Int) : List Int × Bool :=
  reshuffleIter files.length (files, false)

/-- `get_editor_command` (lines 232-236).  `editor` is the optional
parameter; Python truthiness makes the empty string fall through.
`env_EDITOR` is `os.environ.get('EDITOR', ...)` and `self_editor` the
`self.editor` fallback. -/
def get_editor_command (env_EDITOR : Option String) (self_editor : String) :
    Option String → String
  | some e => if e = "" then env_EDITOR.getD self_editor else e
  | Option.none => env_EDITOR.getD self_editor

/-- The editor command `write_solution` actually launches (line 247):
`self.get_editor_command(self.editor)` — the stored editor is passed as the
explicit `editor` argument. -/
def write_solution_editor (env_EDITOR : Option String) (self_editor : String) : String :=
  get_editor_command env_EDITOR self_editor (some self_editor)

/-- `self.editor` after `load_config` (lines 104-113): the config file's
`editor` field when the file is readable and has one, otherwise `'vi'`
(also the fallback when reading raises). -/
def config_editor (stored : Option String) : String :=
  stored.getD "vi"

/-- Python's `str.lower()` (ASCII case folding, applied per character). -/
def pyLower (s : String) : String := ⟨s.data.map Char.toLower⟩

/-- `check == 'yes'` (line 169): the problem goes to the `completed` list
regardless of difficulty. -/
def isCompB (p : Problem) : Bool := p.completion == "yes"

/-- Line 173: not completed and `difficulty.lower() == 'easy'`. -/
def isEasyB (p : Problem) : Bool :=
  !(p.completion == "yes") && pyLower p.difficulty == "easy"

/-- Line 175: not completed and `difficulty.lower() == 'medium'`. -/
def isMedB (p : Problem) : Bool :=
  !(p.completion == "yes") && pyLower p.difficulty == "medium"

/-- Line 177: not completed and `difficulty.lower() == 'hard'`. -/
def isHardB (p : Problem) : Bool :=
  !(p.completion == "yes") && pyLower p.difficulty == "hard"

/-- The `incomplete` list of `display_problems`: the only statement that
would populate it (lines 171-172) is commented out in the source, so no
problem ever satisfies this predicate. -/
def isIncompleteB (_ : Problem) : Bool := false

/-- Loop body of `display_problems` (lines 146-178): route the problem into
the `completed` list when its completion is `'yes'`, otherwise into the list
for its (lower-cased) difficulty; any other difficulty is appended nowhere. -/
def bucketStep (acc : List Problem × List Problem × List Problem × List Problem × List Problem)
    (p : Problem) : List Problem × List Problem × List Problem × List Problem × List Problem :=
  let (inc, easy, med, hard, comp) := acc
  if p.completion == "yes" then (inc, easy, med, hard, comp ++ [p])
  else if pyLower p.difficulty == "easy" then (inc, easy ++ [p], med, hard, comp)
  else if pyLower p.difficulty == "medium" then (inc, easy, med ++ [p], hard, comp)
  else if pyLower p.difficulty == "hard" then (inc, easy, med, hard ++ [p], comp)
  else (inc, easy, med, hard, comp)

/-- The order in which `display_problems` (lines 134-187) prints the
problems: the five lists are concatenated as `incomplete + easy + med +
hard + completed` (line 181). -/
def display_problems_order (ps : List Problem) : List Problem :=
  let (inc, easy, med, hard, comp) := ps.foldl bucketStep ([], [], [], [], [])
  inc ++ easy ++ med ++ hard ++ comp

/-- `display_problem` (lines 200-230): the sample-case loop `for i in
range(2)` indexes `problem.test_cases[0]` and `[1]` unconditionally; with
fewer than two test cases the indexing raises `IndexError`, modelled as the
`error` branch. -/
def display_problem (p : Problem) : Except String (TestCase × TestCase) :=
  match p.test_cases with
  | t0 :: t1 :: _ => .ok (t0, t1)
  | _ => .error "IndexError"

/-- Stable ascending insertion by `id`, modelling
`self.problems.sort(key=lambda x: x.id)` (line 120). -/
def insertById (p : Problem) : List Problem → List Problem
  | [] => [p]
  | q :: qs => if p.id < q.id then p :: q :: qs else q :: insertById p qs

/-- Ascending sort by `id` used by `load_problems`. -/
def sortById (ps : List Problem) : List Problem :=
  ps.foldr insertById []

/-- Reading one problem file (lines 117-119): `json.load` /
`Problem.from_json` either yields a problem or raises; there is no handler,
so a raise propagates (modelled as `Option.none`). -/
def gatherProblems : List (Option Problem) → Option (List Problem)
  | [] => some []
  | Option.none :: _ => Option.none
  | some p :: rest =>
    match gatherProblems rest with
    | Option.none => Option.none
    | some ps => some (p :: ps)

/-- `load_problems` (lines 115-120): parse every file, then sort by id; a
single unreadable file aborts the whole load with an uncaught exception. -/
def load_problems (files : List (Option Problem)) : Option (List Problem) :=
  (gatherProblems files).map sortById

/-- The user's input for one loop iteration, already stripped/lower-cased as
on lines 311 and 327: `q`/`w`/`t`/`r`, a successfully parsed integer, or
anything else (the `ValueError` / unknown-command path). -/
inductive Choice where
  | q
  | w
  | t
  | r
  | num (n : Int)
  | other (s : String)
deriving DecidableEq, Repr

/-- Session state of `TerminalLeetCode`: the loaded problems, the
current-problem pointer, the in-memory solution text, and the on-disk
solution files as (problem id, file text) pairs. -/
structure AppState where
  problems : List Problem
  current_problem : Option Problem
  user_code : String
  solutions : List (Int × String)
deriving DecidableEq, Repr

/-- Environment for one loop iteration: the user's choice and, for the `w`
branch, the outcome of the editor subprocess — `Option.none` when the editor
executable cannot be launched (`subprocess.call` raises
`FileNotFoundError`), otherwise the solution file's contents when the
editor exits. -/
structure Env where
  choice : Choice
  editor : Option String
deriving DecidableEq, Repr

/-- Result of one iteration of the `while True` loop in `run`. -/
inductive StepOutcome where
  | next (s : AppState)
  | exit (s : AppState)
  | raise (e : String)
deriving DecidableEq, Repr

/-- `write_solution` (lines 238-252): create the solution file seeded with
the problem's starter template when absent, launch the editor (a launch
failure raises out of the method), then re-read the file into
`self.user_code`. -/
def write_solution (s : AppState) (p : Problem) (editorResult : Option String) :
    Option AppState :=
  let sols :=
    if (s.solutions.lookup p.id).isSome then s.solutions
    else s.solutions ++ [(p.id, p.function_template)]
  match editorResult with
  | Option.none => Option.none
  | some txt =>
    some { s with
      solutions := sols.map (fun kv => if kv.1 = p.id then (kv.1, txt) else kv),
      user_code := txt }

/-- One iteration of `run`'s `while True` loop (lines 307-340).  In the
listing state an unknown id or unparseable input prints a message and loops;
in the detail state `display_problem` runs before the prompt (line 326) and
its `IndexError` propagates, as does a `FileNotFoundError` from the editor
launch inside `write_solution`; `t` runs the tests (which never raise) and
loops; `r` clears the current problem and the in-memory solution text. -/
def step (s : AppState) (env : Env) : StepOutcome :=
  match s.current_problem with
  | Option.none =>
    match env.choice with
    | .q => .exit s
    | .num n =>
      match s.problems.find? (fun p => p.id == n) with
      | some p => .next { s with current_problem := some p }
      | Option.none => .next s
    | _ => .next s
  | some p =>
    match display_problem p with
    | .error e => .raise e
    | .ok _ =>
      match env.choice with
      | .q => .exit s
      | .w =>
        match write_solution s p env.editor with
        | Option.none => .raise "FileNotFoundError"
        | some s2 => .next s2
      | .t => .next s
      | .r => .next { s with current_problem := Option.none, user_code := "" }
      | _ => .next s

/-- The `while True` loop of `run`, driven by a list of per-iteration
environments: a `raise` step is an uncaught exception that terminates the
process (`Except.error`); `q` leaves the loop normally. -/
def run (s : AppState) : List Env → Except String (Option AppState)
  | [] => .ok (some s)
  | e :: es =>
    match step s e with
    | .next s2 => run s2 es
    | .exit _ => .ok Option.none
    | .raise err => .error err

/-- Sample solution function: identity on one integer argument, raising on
zero (a division-by-zero style error) and on any other argument shape. -/
def wf : PyFunc := fun args =>
  match args with
  | [Value.int n] =>
    if n == 0 then Except.error "ZeroDivisionError" else Except.ok (Value.int n)
  | _ => Except.error "TypeError"

/-- Two sample test cases: one that passes under `wf` and one that raises. -/
def wtcs : List TestCase :=
  [⟨[Value.int 5], Value.int 5⟩, ⟨[Value.int 0], Value.int 0⟩]

/-- A completed problem of difficulty `hard`. -/
def wA : Problem :=
  ⟨1, "a", "hard", "d", "def f(x): return x",
    [⟨[.int 1], .int 1⟩, ⟨[.int 2], .int 2⟩], "yes"⟩

/-- A not-yet-completed problem of difficulty `Easy`. -/
def wB : Problem :=
  ⟨2, "b", "Easy", "d", "def f(x): return x",
    [⟨[.int 1], .int 1⟩, ⟨[.int 2], .int 2⟩], "no"⟩

/-- A problem with the two sample cases the detail view needs. -/
def wP2 : Problem :=
  ⟨1, "t", "easy", "d", "def f(x): return x",
    [⟨[.int 1], .int 1⟩, ⟨[.int 2], .int 2⟩], "no"⟩

/-- A detail-view session state on `wP2` with one solution file on disk. -/
def wStateDetail : AppState := ⟨[wP2], some wP2, "code", [(1, "print(1)")]⟩

/-- A problem with only one test case. -/
def wShortP : Problem :=
  ⟨3, "c", "easy", "d", "def f(x): return x", [⟨[.int 1], .int 1⟩], "no"⟩

/-- Listing-view session state whose store holds only `wShortP`. -/
def wStateL : AppState := ⟨[wShortP], Option.none, "", []⟩

/-- Detail-view session state on the one-test-case problem `wShortP`. -/
def wStateD : AppState := ⟨[wShortP], some wShortP, "", []⟩

theorem runTestsLoop_spec (f : PyFunc) (tcs : List TestCase) (ap : Bool) :
    runTestsLoop f tcs ap =
      (tcs.map (caseOutcome f),
       ap && tcs.all (fun tc => caseOutcome f tc == CaseOutcome.passed)) := by
  induction tcs generalizing ap with
  | nil => simp [runTestsLoop]
  | cons tc rest ih =>
    simp only [runTestsLoop, List.map_cons, List.all_cons]
    cases h : invokeCase f tc with
    | ok r =>
      by_cases hp : pyEq r tc.expected_output
      · simp [caseOutcome, h, hp, ih, Bool.and_assoc]
      · simp [caseOutcome, h, hp, ih]
    | error e => simp [caseOutcome, h, ih]

/-- C1: when the solution's top-level code loads successfully, `run_tests`
evaluates every test case in order, classifying each as passed (return value
equals the expected output), failed (value mismatch) or errored (the
invocation raises); an erroring case does not stop the remaining cases (the
report holds one outcome per case, in order), and the `all_passed` flag is
true iff every case passed — any failure or error clears it. -/
theorem run_tests_case_classification (code : String) (f : PyFunc)
    (tcs : List TestCase) (hcode : code ≠ "") :
    run_tests code (Except.ok f) tcs =
      TestReport.results (tcs.map (caseOutcome f))
        (tcs.all fun tc => caseOutcome f tc == CaseOutcome.passed) ∧
    ((tcs.all fun tc => caseOutcome f tc == CaseOutcome.passed) = true ↔
      ∀ tc ∈ tcs, caseOutcome f tc = CaseOutcome.passed) := by
  constructor
  · simp [run_tests, hcode, runTestsLoop_spec]
  · simp [List.all_eq_true]

/-- C1 witness: a passing case followed by a raising case for the same
solution yields one passed and one errored outcome with `all_passed` false. -/
theorem run_tests_case_classification_witness :
    run_tests "def f(x): return x" (Except.ok wf) wtcs =
      TestReport.results [CaseOutcome.passed, CaseOutcome.errored] false := by
  have h := run_tests_case_classification "def f(x): return x" wf wtcs (by decide)
  rw [h.1]
  rfl

/-- C2: when loading the top-level solution code fails (syntax error in
`exec`, or the declared function name cannot be resolved in the namespace),
`run_tests` reports exactly one top-level error and produces no per-case
outcomes; being a total function, it does not raise out of the run. -/
theorem run_tests_top_level_error (code e : String) (tcs : List TestCase)
    (hcode : code ≠ "") :
    run_tests code (Except.error e) tcs = TestReport.topError e ∧
    ∀ os ap, run_tests code (Except.error e) tcs ≠ TestReport.results os ap := by
  refine ⟨by simp [run_tests, hcode], ?_⟩
  intro os ap
  simp [run_tests, hcode]

/-- C2 witness: a solution whose code has a syntax error reports a single
top-level error and evaluates zero cases. -/
theorem run_tests_top_level_error_witness :
    run_tests "def f(" (Except.error "SyntaxError") wtcs =
      TestReport.topError "SyntaxError" := by
  exact (run_tests_top_level_error "def f(" "SyntaxError" wtcs (by decide)).1

/-- C3: the harness invokes the user's function with the case's inputs as a
single positional argument when there is exactly one input, and spread as
separate positional arguments otherwise (the zero-input case calls with no
arguments); the captured return value is compared to the expected output by
Python equality. -/
theorem invoke_call_shape (f : PyFunc) (tc : TestCase) :
    invokeCase f tc = f (argsOf (mkCall tc.inputs)) ∧
    (∀ v, tc.inputs = [v] → mkCall tc.inputs = CallShape.single v) ∧
    (tc.inputs.length ≠ 1 → mkCall tc.inputs = CallShape.spread tc.inputs) ∧
    (tc.inputs = [] → argsOf (mkCall tc.inputs) = []) ∧
    (∀ r, invokeCase f tc = Except.ok r →
      (caseOutcome f tc = CaseOutcome.passed ↔ pyEq r tc.expected_output = true)) := by
  obtain ⟨ins, out⟩ := tc
  have hlast : ∀ r, invokeCase f ⟨ins, out⟩ = Except.ok r →
      (caseOutcome f ⟨ins, out⟩ = CaseOutcome.passed ↔ pyEq r out = true) := by
    intro r hr
    unfold caseOutcome
    rw [hr]
    by_cases hp : pyEq r out <;> simp [hp]
  match ins with
  | [] =>
    refine ⟨rfl, ?_, fun _ => rfl, fun _ => rfl, hlast⟩
    intro v h
    simp at h
  | [v] =>
    refine ⟨rfl, ?_, ?_, ?_, hlast⟩
    · intro w h
      cases h
      rfl
    · intro h
      simp at h
    · intro h
      simp at h
  | v1 :: v2 :: rest =>
    refine ⟨rfl, ?_, fun _ => rfl, ?_, hlast⟩
    · intro v h
      simp at h
    · intro h
      simp at h

/-- C3 witness: one input is passed as a single positional argument, two
inputs are spread, zero inputs call with no arguments. -/
theorem invoke_call_shape_witness :
    mkCall [Value.int 7] = CallShape.single (Value.int 7) ∧
    mkCall [Value.int 2, Value.int 3] = CallShape.spread [Value.int 2, Value.int 3] ∧
    argsOf (mkCall []) = [] ∧
    caseOutcome wf ⟨[Value.int 5], Value.int 5⟩ = CaseOutcome.passed := by
  refine ⟨?_, ?_, ?_, ?_⟩
  · exact (invoke_call_shape wf ⟨[Value.int 7], Value.int 7⟩).2.1 (Value.int 7) rfl
  · exact (invoke_call_shape wf ⟨[Value.int 2, Value.int 3], Value.int 5⟩).2.2.1 (by decide)
  · exact (invoke_call_shape wf ⟨[], Value.none⟩).2.2.2.1 rfl
  · exact ((invoke_call_shape wf ⟨[Value.int 5], Value.int 5⟩).2.2.2.2
      (Value.int 5) rfl).mpr (by decide)

theorem reshufflePass_front (as : List Int) (seen rest : List Int)
    (hnd : as.Nodup) (hdisj : ∀ a ∈ as, a ∉ seen) :
    reshufflePass seen (as ++ rest) =
      (as ++ (reshufflePass (seen ++ as) rest).1, (reshufflePass (seen ++ as) rest).2) := by
  induction as generalizing seen with
  | nil => simp
  | cons a tl ih =>
    have ha : a ∉ seen := hdisj a (List.mem_cons_self a tl)
    have h1 : tl.Nodup := hnd.of_cons
    have h2 : ∀ b ∈ tl, b ∉ seen ++ [a] := by
      intro b hb
      simp only [List.mem_append, List.mem_singleton]
      rintro (hbs | rfl)
      · exact hdisj b (List.mem_cons_of_mem _ hb) hbs
      · exact (List.nodup_cons.mp hnd).1 hb
    simp only [List.cons_append, reshufflePass, if_neg ha, List.append_eq]
    rw [ih (seen ++ [a]) h1 h2]
    simp [List.append_assoc]

theorem reshufflePass_clean (fs : List Int) (seen : List Int)
    (hnd : fs.Nodup) (hdisj : ∀ a ∈ fs, a ∉ seen) :
    reshufflePass seen fs = (fs, false) := by
  have h := reshufflePass_front fs seen [] hnd hdisj
  simpa [reshufflePass] using h

theorem reshuffleIter_clean (n : Nat) (fs : List Int) (sh : Bool) (hnd : fs.Nodup) :
    reshuffleIter n (fs, sh) = (fs, sh) := by
  induction n with
  | zero => rfl
  | succ n ih =>
    simp [reshuffleIter, reshufflePass_clean fs [] hnd (by simp), ih]

theorem reshufflePass_fix (as bs cs : List Int) (k : Int)
    (ha : as.Nodup) (hb : bs.Nodup) (hc : cs.Nodup)
    (hka : k ∉ as) (hkb : k ∉ bs)
    (hba : ∀ b ∈ bs, b ∉ as)
    (hcs : ∀ x ∈ cs, x ∉ as ∧ x ≠ k ∧ x ∉ bs) :
    reshufflePass [] (as ++ k :: (bs ++ k :: cs)) =
      (as ++ k :: (bs ++ (k + 1) :: cs), true) := by
  rw [reshufflePass_front as [] (k :: (bs ++ k :: cs)) ha (by simp)]
  simp only [List.nil_append]
  have hbs2 : ∀ b ∈ bs, b ∉ as ++ [k] := by
    intro b hb2
    simp only [List.mem_append, List.mem_singleton]
    rintro (hin | rfl)
    · exact hba b hb2 hin
    · exact hkb hb2
  have hkmem : k ∈ (as ++ [k]) ++ bs := by simp
  have hcs2 : ∀ x ∈ cs, x ∉ (as ++ [k]) ++ bs := by
    intro x hx
    obtain ⟨hxa, hxk, hxb⟩ := hcs x hx
    simp only [List.mem_append, List.mem_singleton]
    rintro ((h | rfl) | h)
    · exact hxa h
    · exact hxk rfl
    · exact hxb h
  rw [show reshufflePass as (k :: (bs ++ k :: cs)) =
      (k :: (reshufflePass (as ++ [k]) (bs ++ k :: cs)).1,
       (reshufflePass (as ++ [k]) (bs ++ k :: cs)).2) from by
    simp only [reshufflePass, if_neg hka]]
  rw [reshufflePass_front bs (as ++ [k]) (k :: cs) hb hbs2]
  rw [show reshufflePass ((as ++ [k]) ++ bs) (k :: cs) =
      ((k + 1) :: (reshufflePass ((as ++ [k]) ++ bs) cs).1, true) from by
    simp only [reshufflePass, if_pos hkmem]]
  rw [reshufflePass_clean cs ((as ++ [k]) ++ bs) hc hcs2]

/-- C4: on a store with exactly two records sharing identifier `k` and no
other collisions (in particular `k + 1` unused), the repair leaves exactly
one record with identifier `k`, reassigns the later occurrence to `k + 1`
in the persisted store, leaves no two records sharing an identifier, and
reports that a repair occurred. -/
theorem reshuffle_repairs_two_duplicates (as bs cs : List Int) (k : Int)
    (H : (as ++ k :: (bs ++ (k + 1) :: cs)).Nodup) :
    reshuffle_id_nums (as ++ k :: (bs ++ k :: cs)) =
      (as ++ k :: (bs ++ (k + 1) :: cs), true) ∧
    (as ++ k :: (bs ++ (k + 1) :: cs)).count k = 1 ∧
    (as ++ k :: (bs ++ (k + 1) :: cs)).Nodup ∧
    (reshuffle_id_nums (as ++ k :: (bs ++ k :: cs))).2 = true := by
  obtain ⟨ha, hrest, hdisj⟩ := List.nodup_append.mp H
  obtain ⟨hk1, hrest2⟩ := List.nodup_cons.mp hrest
  obtain ⟨hb, hrest3, hdisj2⟩ := List.nodup_append.mp hrest2
  obtain ⟨hk2, hc⟩ := List.nodup_cons.mp hrest3
  have hka : k ∉ as := fun h => hdisj h (List.mem_cons_self _ _)
  have hkb : k ∉ bs := fun h => hk1 (List.mem_append_left _ h)
  have hba : ∀ b ∈ bs, b ∉ as := fun b hb2 h => hdisj h (by simp [hb2])
  have hcs : ∀ x ∈ cs, x ∉ as ∧ x ≠ k ∧ x ∉ bs := by
    intro x hx
    refine ⟨fun h => hdisj h (by simp [hx]), ?_, fun h => hdisj2 h (by simp [hx])⟩
    rintro rfl
    exact hk1 (by simp [hx])
  have hfix := reshufflePass_fix as bs cs k ha hb hc hka hkb hba hcs
  have hmain : reshuffle_id_nums (as ++ k :: (bs ++ k :: cs)) =
      (as ++ k :: (bs ++ (k + 1) :: cs), true) := by
    have hlen : (as ++ k :: (bs ++ k :: cs)).length =
        (as.length + bs.length + cs.length + 1) + 1 := by
      simp only [List.length_append, List.length_cons]
      omega
    unfold reshuffle_id_nums
    rw [hlen]
    simp only [reshuffleIter, hfix, Bool.false_or]
    simpa using reshuffleIter_clean (as.length + bs.length + cs.length + 1)
      (as ++ k :: (bs ++ (k + 1) :: cs)) true H
  refine ⟨hmain, ?_, H, by rw [hmain]⟩
  have hmem : k ∈ as ++ k :: (bs ++ (k + 1) :: cs) := by simp
  have hle := List.nodup_iff_count_le_one.mp H k
  have hpos : 0 < (as ++ k :: (bs ++ (k + 1) :: cs)).count k :=
    List.count_pos_iff.mpr hmem
  omega

/-- C4 witness: a store of two records both carrying identifier `0` is
repaired to identifiers `0` and `1`, and the repair is reported. -/
theorem reshuffle_repairs_two_duplicates_witness :
    reshuffle_id_nums [0, 0] = ([0, 1], true) := by
  exact (reshuffle_repairs_two_duplicates [] [] [] 0 (by decide)).1

/-- C5 counterexample: on the store `[2, 1, 1]` a single scan reassigns the
last record to identifier `2`, which collides with the pre-existing first
record — but the operation as a whole does re-check the newly assigned
identifier: a later scan of the per-directory-entry outer loop repairs it,
and the final store `[2, 1, 3]` has no collision left, contradicting the
claim that such a collision is left unrepaired. -/
theorem reshuffle_single_scan_counterexample :
    reshufflePass [] [2, 1, 1] = ([2, 1, 2], true) ∧
    reshuffle_id_nums [2, 1, 1] = ([2, 1, 3], true) ∧
    (reshuffle_id_nums [2, 1, 1]).1.Nodup := by
  refine ⟨by decide, by decide, by decide⟩

/-- C5 (amended): one scan of the repair is single-pass per duplicate — a
newly assigned identifier is not re-checked within the same scan, so a scan
can leave a fresh collision (`[1, 1, 2]` becomes `[1, 2, 2]`) — but
`reshuffle_id_nums` repeats the scan once per directory entry, and a later
scan re-checks and repairs the cascaded collision (final store
`[1, 2, 3]`, collision-free). -/
theorem reshuffle_rescans_new_ids :
    reshufflePass [] [1, 1, 2] = ([1, 2, 2], true) ∧
    ¬ ([1, 2, 2] : List Int).Nodup ∧
    reshuffle_id_nums [1, 1, 2] = ([1, 2, 3], true) ∧
    (reshuffle_id_nums [1, 1, 2]).1.Nodup := by
  refine ⟨by decide, by decide, by decide, by decide⟩

/-- C6 counterexample: with the environment variable set to `nano` and the
config-stored editor `emacs`, `write_solution` opens the solution file with
`emacs`, not the environment variable's value — because line 247 passes
`self.editor` as the explicit `editor` argument, which `get_editor_command`
returns before ever consulting the environment. -/
theorem editor_env_ignored_counterexample :
    write_solution_editor (some "nano") "emacs" = "emacs" ∧
    ("emacs" : String) ≠ "nano" := by
  refine ⟨by decide, by decide⟩

/-- C6 (amended): `get_editor_command` prefers a non-empty explicitly passed
editor, then the `EDITOR` environment variable, then the stored editor
(default `vi`); but `write_solution` passes the stored editor explicitly, so
the environment variable is consulted only when the stored editor is the
empty string. -/
theorem write_solution_editor_precedence (env : Option String) (stored : String)
    (h : stored ≠ "") :
    write_solution_editor env stored = stored ∧
    write_solution_editor env "" = env.getD "" ∧
    get_editor_command env stored Option.none = env.getD stored ∧
    config_editor Option.none = "vi" := by
  refine ⟨?_, ?_, rfl, rfl⟩
  · simp [write_solution_editor, get_editor_command, h]
  · simp [write_solution_editor, get_editor_command]

/-- C6 witness: the stored editor `emacs` wins over `EDITOR=nano`; with an
empty stored editor the environment variable is used. -/
theorem write_solution_editor_precedence_witness :
    write_solution_editor (some "nano") "emacs" = "emacs" ∧
    write_solution_editor (some "nano") "" = "nano" := by
  have h := write_solution_editor_precedence (some "nano") "emacs" (by decide)
  exact ⟨h.1, h.2.1⟩

theorem bucket_foldl (ps : List Problem) (i e m h c : List Problem) :
    ps.foldl bucketStep (i, e, m, h, c) =
      (i, e ++ ps.filter isEasyB, m ++ ps.filter isMedB,
       h ++ ps.filter isHardB, c ++ ps.filter isCompB) := by
  induction ps generalizing e m h c with
  | nil => simp
  | cons p rest ih =>
    by_cases h1 : p.completion == "yes"
    · simp [List.foldl_cons, bucketStep, h1, ih, isCompB, isEasyB, isMedB, isHardB,
        List.filter_cons, List.append_assoc]
    · by_cases h2 : pyLower p.difficulty == "easy"
      · have he : pyLower p.difficulty = "easy" := by simpa using h2
        simp [List.foldl_cons, bucketStep, h1, he, ih, isCompB, isEasyB, isMedB, isHardB,
          List.filter_cons, List.append_assoc]
      · by_cases h3 : pyLower p.difficulty == "medium"
        · have he : pyLower p.difficulty = "medium" := by simpa using h3
          simp [List.foldl_cons, bucketStep, h1, h2, he, ih, isCompB, isEasyB, isMedB,
            isHardB, List.filter_cons, List.append_assoc]
        · by_cases h4 : pyLower p.difficulty == "hard"
          · have he : pyLower p.difficulty = "hard" := by simpa using h4
            simp [List.foldl_cons, bucketStep, h1, h2, h3, he, ih, isCompB, isEasyB,
              isMedB, isHardB, List.filter_cons, List.append_assoc]
          · simp [List.foldl_cons, bucketStep, h1, h2, h3, h4, ih, isCompB, isEasyB,
              isMedB, isHardB, List.filter_cons]

theorem filter_incomplete_nil (ps : List Problem) :
    ps.filter isIncompleteB = [] := by
  induction ps with
  | nil => rfl
  | cons p r ih => simp [List.filter_cons, isIncompleteB, ih]

theorem bucket_length (ps : List Problem)
    (hvalid : ∀ p ∈ ps, p.completion = "yes" ∨ pyLower p.difficulty = "easy" ∨
      pyLower p.difficulty = "medium" ∨ pyLower p.difficulty = "hard") :
    (ps.filter isEasyB).length + (ps.filter isMedB).length +
      (ps.filter isHardB).length + (ps.filter isCompB).length = ps.length := by
  induction ps with
  | nil => simp
  | cons p rest ih =>
    have hrest := ih (fun q hq => hvalid q (List.mem_cons_of_mem _ hq))
    have hp := hvalid p (List.mem_cons_self _ _)
    by_cases h1 : p.completion = "yes"
    · simp [List.filter_cons, isCompB, isEasyB, isMedB, isHardB, h1]
      omega
    · rcases hp with h | h | h | h
      · exact absurd h h1
      · simp [List.filter_cons, isCompB, isEasyB, isMedB, isHardB, h1, h]
        omega
      · simp [List.filter_cons, isCompB, isEasyB, isMedB, isHardB, h1, h]
        omega
      · simp [List.filter_cons, isCompB, isEasyB, isMedB, isHardB, h1, h]
        omega

/-- C7: over a store whose problems carry a valid difficulty (or are
completed), the listing view is the concatenation, in this fixed order, of
the never-populated `incomplete` bucket, the easy, medium and hard buckets
(holding the not-completed problems of that difficulty), and the completed
bucket; a problem whose completion is `'yes'` is in the completed bucket
regardless of its difficulty, every problem appears (length is preserved),
and each bucket is a `filter` of the input, so the within-bucket order is
exactly the identifier-sorted load order with no secondary sort. -/
theorem display_problems_bucket_order (ps : List Problem)
    (hvalid : ∀ p ∈ ps, p.completion = "yes" ∨ pyLower p.difficulty = "easy" ∨
      pyLower p.difficulty = "medium" ∨ pyLower p.difficulty = "hard") :
    display_problems_order ps =
      ps.filter isIncompleteB ++ ps.filter isEasyB ++ ps.filter isMedB ++
        ps.filter isHardB ++ ps.filter isCompB ∧
    (display_problems_order ps).length = ps.length ∧
    ∀ p ∈ ps, p.completion = "yes" →
      isCompB p = true ∧ isEasyB p = false ∧ isMedB p = false ∧
      isHardB p = false ∧ isIncompleteB p = false := by
  have horder : display_problems_order ps =
      ps.filter isIncompleteB ++ ps.filter isEasyB ++ ps.filter isMedB ++
        ps.filter isHardB ++ ps.filter isCompB := by
    unfold display_problems_order
    rw [bucket_foldl ps [] [] [] [] [], filter_incomplete_nil]
    simp
  refine ⟨horder, ?_, ?_⟩
  · rw [horder, filter_incomplete_nil]
    simp only [List.length_append, List.length_nil]
    have hb := bucket_length ps hvalid
    omega
  · intro p _ hyes
    simp [isCompB, isEasyB, isMedB, isHardB, isIncompleteB, hyes]

/-- C7 witness: a completed problem of difficulty `hard` (`wA`) is listed in
the completed bucket, after the not-completed easy problem `wB`, although it
comes first in identifier order. -/
theorem display_problems_bucket_order_witness :
    display_problems_order [wA, wB] = [wB, wA] := by
  have h := display_problems_bucket_order [wA, wB] (by decide)
  rw [h.1]
  decide

theorem gather_none (files : List (Option Problem)) (hf : Option.none ∈ files) :
    gatherProblems files = Option.none := by
  induction files with
  | nil => cases hf
  | cons x rest ih =>
    cases x with
    | none => rfl
    | some p =>
      have : Option.none ∈ rest := by
        rcases List.mem_cons.mp hf with h | h
        · cases h
        · exact h
      simp [gatherProblems, ih this]

/-- C8: from any detail state (whose problem has the two sample cases the
detail view renders), the `r` action moves to the listing state with the
current-problem reference cleared and the in-memory solution text emptied,
while the on-disk solution files (and the problem store) are untouched. -/
theorem detail_return_clears_and_keeps_disk (s : AppState) (p : Problem) (env : Env)
    (hc : s.current_problem = some p)
    (hlen : 2 ≤ p.test_cases.length)
    (hch : env.choice = Choice.r) :
    step s env = StepOutcome.next { s with current_problem := Option.none, user_code := "" } ∧
    ∀ s2, step s env = StepOutcome.next s2 →
      s2.solutions = s.solutions ∧ s2.problems = s.problems ∧
      s2.current_problem = Option.none ∧ s2.user_code = "" := by
  obtain ⟨t0, t1, rest, hts⟩ : ∃ t0 t1 rest, p.test_cases = t0 :: t1 :: rest := by
    match h : p.test_cases with
    | [] => rw [h] at hlen; simp at hlen
    | [a] => rw [h] at hlen; simp at hlen
    | a :: b :: r => exact ⟨a, b, r, rfl⟩
  have h1 : step s env =
      StepOutcome.next { s with current_problem := Option.none, user_code := "" } := by
    simp [step, hc, display_problem, hts, hch]
  refine ⟨h1, ?_⟩
  intro s2 hs2
  rw [h1] at hs2
  injection hs2 with h2
  subst h2
  exact ⟨rfl, rfl, rfl, rfl⟩

/-- C8 witness: returning from the detail view on `wP2` clears the current
problem and solution text while the solution file on disk stays. -/
theorem detail_return_clears_and_keeps_disk_witness :
    step wStateDetail ⟨Choice.r, Option.none⟩ =
      StepOutcome.next ⟨[wP2], Option.none, "", [(1, "print(1)")]⟩ := by
  exact (detail_return_clears_and_keeps_disk wStateDetail wP2
    ⟨Choice.r, Option.none⟩ rfl (by decide) rfl).1

/-- C9 counterexample: not every error returns control to the interactive
loop — in the detail state on the one-test-case problem `wShortP`, the very
first render raises `IndexError`, which propagates out of the loop and
terminates the process (no quit command was given). -/
theorem fatal_error_counterexample :
    step wStateD ⟨Choice.r, some "x"⟩ = StepOutcome.raise "IndexError" ∧
    run wStateD [⟨Choice.r, some "x"⟩] = Except.error "IndexError" := by
  exact ⟨rfl, rfl⟩

/-- C9 (amended): navigation errors (unknown identifier, unparseable or
unknown command) and test-run errors print a message and return control to
the interactive loop, and `q` is the loop's only normal exit; but three
error classes are unhandled and terminate the process: a problem-store load
failure at startup, an editor launch failure inside `write_solution`, and
rendering a problem with fewer than two test cases. -/
theorem error_handling_taxonomy (s sd : AppState) (p : Problem)
    (e1 e2 e3 e4 : Env) (n : Int) (msg : String)
    (hs : s.current_problem = Option.none)
    (hsd : sd.current_problem = some p)
    (hp2 : 2 ≤ p.test_cases.length)
    (h1 : e1.choice = Choice.num n)
    (hfind : s.problems.find? (fun q => q.id == n) = Option.none)
    (h2 : e2.choice = Choice.other msg)
    (h3 : e3.choice = Choice.t)
    (h4 : e4.choice = Choice.w) (hed : e4.editor = Option.none) :
    step s e1 = StepOutcome.next s ∧
    step s e2 = StepOutcome.next s ∧
    step sd e3 = StepOutcome.next sd ∧
    step sd e4 = StepOutcome.raise "FileNotFoundError" ∧
    (∀ q : Problem, q.test_cases.length < 2 →
      ∀ env : Env, step { sd with current_problem := some q } env =
        StepOutcome.raise "IndexError") ∧
    (∀ files : List (Option Problem), Option.none ∈ files →
      load_problems files = Option.none) := by
  obtain ⟨t0, t1, rest, hts⟩ : ∃ t0 t1 rest, p.test_cases = t0 :: t1 :: rest := by
    match h : p.test_cases with
    | [] => rw [h] at hp2; simp at hp2
    | [a] => rw [h] at hp2; simp at hp2
    | a :: b :: r => exact ⟨a, b, r, rfl⟩
  refine ⟨?_, ?_, ?_, ?_, ?_, ?_⟩
  · simp [step, hs, h1, hfind]
  · simp [step, hs, h2]
  · simp [step, hsd, display_problem, hts, h3]
  · simp [step, hsd, display_problem, hts, h4, write_solution, hed]
  · intro q hq env
    match hh : q.test_cases with
    | [] => simp [step, display_problem, hh]
    | [a] => simp [step, display_problem, hh]
    | a :: b :: r => rw [hh] at hq; simp at hq; omega
  · intro files hf
    simp [load_problems, gather_none files hf]

/-- C9 witness: an unknown identifier in the listing keeps the loop running,
while an editor launch failure in the detail view raises out of it. -/
theorem error_handling_taxonomy_witness :
    step ⟨[wP2], Option.none, "", []⟩ ⟨Choice.num 99, Option.none⟩ =
      StepOutcome.next ⟨[wP2], Option.none, "", []⟩ ∧
    step wStateDetail ⟨Choice.w, Option.none⟩ =
      StepOutcome.raise "FileNotFoundError" := by
  have h := error_handling_taxonomy ⟨[wP2], Option.none, "", []⟩ wStateDetail wP2
    ⟨Choice.num 99, Option.none⟩ ⟨Choice.other "xyz", Option.none⟩
    ⟨Choice.t, Option.none⟩ ⟨Choice.w, Option.none⟩ 99 "xyz"
    rfl rfl (by decide) rfl (by decide) rfl rfl rfl rfl
  exact ⟨h.1, h.2.2.2.1⟩

/-- C10: the detail view reads test cases at indices 0 and 1 unconditionally
(when they exist it shows exactly those two as samples), so selecting a
problem with fewer than two test cases from the listing succeeds as a
transition, but the next iteration's render raises an unhandled `IndexError`
that terminates the run instead of displaying the detail view. -/
theorem select_short_problem_raises (s : AppState) (p : Problem) (n : Int)
    (e1 e2 : Env) (es : List Env)
    (hs : s.current_problem = Option.none)
    (hfind : s.problems.find? (fun q => q.id == n) = some p)
    (hlen : p.test_cases.length < 2)
    (h1 : e1.choice = Choice.num n) :
    (∀ (q : Problem) (t0 t1 : TestCase) (r : List TestCase),
      q.test_cases = t0 :: t1 :: r → display_problem q = Except.ok (t0, t1)) ∧
    step s e1 = StepOutcome.next { s with current_problem := some p } ∧
    step { s with current_problem := some p } e2 = StepOutcome.raise "IndexError" ∧
    run s (e1 :: e2 :: es) = Except.error "IndexError" := by
  have hsel : step s e1 = StepOutcome.next { s with current_problem := some p } := by
    simp [step, hs, h1, hfind]
  have hraise : step { s with current_problem := some p } e2 =
      StepOutcome.raise "IndexError" := by
    match hh : p.test_cases with
    | [] => simp [step, display_problem, hh]
    | [a] => simp [step, display_problem, hh]
    | a :: b :: r => rw [hh] at hlen; simp at hlen; omega
  refine ⟨?_, hsel, hraise, ?_⟩
  · intro q t0 t1 r hq
    simp [display_problem, hq]
  · simp [run, hsel, hraise]

/-- C10 witness: selecting the one-test-case problem `wShortP` (id 3) from
the listing raises `IndexError` on the next iteration, terminating the run
even though a quit command was queued. -/
theorem select_short_problem_raises_witness :
    run wStateL [⟨Choice.num 3, Option.none⟩, ⟨Choice.q, Option.none⟩] =
      Except.error "IndexError" := by
  exact (select_short_problem_raises wStateL wShortP 3 ⟨Choice.num 3, Option.none⟩
    ⟨Choice.q, Option.none⟩ [] rfl (by decide) (by decide) rfl).2.2.2

end Termcode
